import Mathlib

/-!
Shallow embedding of the buzz-brief backend (`backend/app/`): the email
parser, script generator, monitoring/metrics helpers, subtitle generation
and the two HTTP endpoints relevant to the claims.  Python strings are
modelled as Lean `String` (list of characters), Python floats as `ℚ`,
Python dicts with known keys as structures of `Option` fields (`none` =
key absent), and raised exceptions as `Except` errors.  Third-party
boundaries (BeautifulSoup's HTML-to-text, the OpenAI client, the Gmail
REST API) are abstracted as explicit function/value parameters.
-/

/-- Python `s[:n]` on strings (character slicing). -/
def strTake (s : String) (n : ℕ) : String := ⟨s.data.take n⟩

/-- Python `str.strip()` on a character list: drop leading and trailing
whitespace. -/
def pyStripChars (l : List Char) : List Char :=
  ((l.dropWhile Char.isWhitespace).reverse.dropWhile Char.isWhitespace).reverse

/-- Python `str.strip()`. -/
def pyStrip (s : String) : String := ⟨pyStripChars s.data⟩

/-- Python `re.sub(r'\s+', ' ', ·)`: collapse every maximal whitespace run
to a single space. -/
def collapseWs : List Char → List Char
  | [] => []
  | [c] => if c.isWhitespace then [' '] else [c]
  | c :: c2 :: cs =>
    if c.isWhitespace && c2.isWhitespace then collapseWs (c2 :: cs)
    else (if c.isWhitespace then ' ' else c) :: collapseWs (c2 :: cs)

/-- Python `str.split('\n')`: split at every newline, keeping empty
pieces. -/
def splitLines : List Char → List (List Char)
  | [] => [[]]
  | c :: cs =>
    if c = '\n' then [] :: splitLines cs
    else
      match splitLines cs with
      | [] => [[c]]
      | l :: ls => (c :: l) :: ls

/-- Python `' '.join(...)` on character lists. -/
def joinWords : List (List Char) → List Char
  | [] => []
  | [w] => w
  | w :: ws => w ++ ' ' :: joinWords ws

/-- ASCII model of Python `str.lower()` on one character. -/
def pyToLower : Char → Char
  | 'A' => 'a' | 'B' => 'b' | 'C' => 'c' | 'D' => 'd' | 'E' => 'e'
  | 'F' => 'f' | 'G' => 'g' | 'H' => 'h' | 'I' => 'i' | 'J' => 'j'
  | 'K' => 'k' | 'L' => 'l' | 'M' => 'm' | 'N' => 'n' | 'O' => 'o'
  | 'P' => 'p' | 'Q' => 'q' | 'R' => 'r' | 'S' => 's' | 'T' => 't'
  | 'U' => 'u' | 'V' => 'v' | 'W' => 'w' | 'X' => 'x' | 'Y' => 'y'
  | 'Z' => 'z'
  | c => c

/-- ASCII model of Python `str.upper()` on one character. -/
def pyToUpper : Char → Char
  | 'a' => 'A' | 'b' => 'B' | 'c' => 'C' | 'd' => 'D' | 'e' => 'E'
  | 'f' => 'F' | 'g' => 'G' | 'h' => 'H' | 'i' => 'I' | 'j' => 'J'
  | 'k' => 'K' | 'l' => 'L' | 'm' => 'M' | 'n' => 'N' | 'o' => 'O'
  | 'p' => 'P' | 'q' => 'Q' | 'r' => 'R' | 's' => 'S' | 't' => 'T'
  | 'u' => 'U' | 'v' => 'V' | 'w' => 'W' | 'x' => 'X' | 'y' => 'Y'
  | 'z' => 'Z'
  | c => c

/-- Python `needle in hay` / `re.search(<literal>, hay)`: `needle` occurs
as a contiguous substring of `hay`. -/
def containsSub (needle hay : List Char) : Bool :=
  (List.range (hay.length + 1)).any fun i => needle.isPrefixOf (hay.drop i)

/-- The regex `on .* wrote:` searched in a single line (no newlines):
there is a position where `"on "` starts, followed later by `" wrote:"`. -/
def onWroteMatch (l : List Char) : Bool :=
  (List.range (l.length + 1)).any fun i =>
    ((l.drop i).take 3 == "on ".data) && containsSub " wrote:".data (l.drop (i + 3))

/-- `email_parser._is_signature_line`: the signature heuristics, applied
to an (already stripped) line; the lowering of the line happens inside as
in the source.  `'^--$'` on a newline-free string matches exactly `"--"`,
and `r'^\s*$'` matches exactly the all-whitespace (or empty) line. -/
def is_signature_line (line : List Char) : Bool :=
  let ll := line.map pyToLower
  containsSub "sent from my".data ll ||
  containsSub "get outlook for".data ll ||
  onWroteMatch ll ||
  ll == "--".data ||
  containsSub "best regards".data ll ||
  containsSub "sincerely".data ll ||
  containsSub "thank you".data ll ||
  containsSub "thanks".data ll ||
  ll.all Char.isWhitespace

/-- `email_parser.clean_email_body`.  BeautifulSoup's HTML-to-text
extraction (`BeautifulSoup(body).get_text()`) is a third-party boundary
and is passed in as the abstract parameter `htmlText`; the rest follows
the source: empty body short-circuits to `""`, lines are stripped, quoted
(`>`-prefixed) and signature lines are dropped, the remainder is joined
with single spaces, whitespace-collapsed and stripped. -/
def clean_email_body (htmlText : String → String) (body : String) : String :=
  if body = "" then ""
  else
    let text := htmlText body
    let stripped := (splitLines text.data).map pyStripChars
    let clean_lines := stripped.filter fun l =>
      !(['>'].isPrefixOf l) && !(is_signature_line l)
    let clean_text := joinWords clean_lines
    ⟨pyStripChars (collapseWs clean_text)⟩

/-- A Gmail-style email dict with the four keys `parse_email` reads;
`none` models an absent key, values are modelled as strings.  (`from` is
a Lean keyword, hence the field name `from_`.) -/
structure EmailInput where
  id : Option String := none
  from_ : Option String := none
  subject : Option String := none
  body : Option String := none
deriving DecidableEq

/-- The record returned by `email_parser.parse_email`: all four fields
are plain (non-optional) strings, mirroring the parser's invariant that
every field is populated. -/
structure ParsedEmail where
  id : String
  from_ : String
  subject : String
  body : String
deriving DecidableEq

/-- `email_parser.parse_email` on a dict (or `None`) input.  `fresh`
stands for the `str(uuid.uuid4())` call; `htmlText` is threaded to
`clean_email_body`.  `None` input is replaced by the empty dict;
`get('id') or uuid` regenerates the id when the key is absent or its
string value is falsy (empty); `from`/`subject` default only when the
key is absent; body is cleaned then hard-truncated to 500 characters.
A non-dict input (which raises `EmailParseError` in the source) is not
representable here; for every representable input the function is total,
mirroring the parser's never-raise policy for mappings. -/
def parse_email (fresh : String) (htmlText : String → String)
    (email_data : Option EmailInput) : ParsedEmail :=
  let d := email_data.getD {}
  let id := match d.id with
    | some s => if s = "" then fresh else s
    | none => fresh
  let from_ := d.from_.getD "Unknown"
  let subject := d.subject.getD "No subject"
  let body0 := clean_email_body htmlText (d.body.getD "")
  let body := if body0.length > 500 then strTake body0 500 else body0
  ⟨id, from_, subject, body⟩

/-! ### Monitoring (`backend/app/monitoring.py`) -/

/-- Outcome of `shutil.disk_usage("/")` in `check_system_health`: either
the `(total, used, free)` triple or a raised exception. -/
inductive DiskCheck
  | usage (total used free : ℚ)
  | exc
deriving DecidableEq

/-- Outcome of `psutil.virtual_memory()` in `check_system_health`: the
percent/available figures, an `ImportError` (psutil missing), or
another raised exception. -/
inductive MemCheck
  | usage (percent available : ℚ)
  | importError
  | exc
deriving DecidableEq

/-- One entry of `health_status["checks"]`. -/
structure HealthCheckEntry where
  status : String
  usage_percent : Option ℚ := none
deriving DecidableEq

/-- The dictionary returned by `check_system_health` (timestamp and
free/available byte figures omitted). -/
structure SystemHealth where
  status : String
  disk_space : HealthCheckEntry
  memory : HealthCheckEntry
deriving DecidableEq

/-- `monitoring.check_system_health`, parameterised by the outcomes of
the disk and memory probes.  Disk: `healthy` below 90% usage, else
`warning`; `error` on exception.  Memory: the same thresholds, `unknown`
on ImportError.  Overall: `unhealthy` if a *critical* check (only
`disk_space`) has status `error`; else `degraded` if any check has
status `warning`; else `healthy`. -/
def check_system_health (disk : DiskCheck) (mem : MemCheck) : SystemHealth :=
  let diskEntry : HealthCheckEntry := match disk with
    | .usage total used _ =>
      { status := if used / total * 100 < 90 then "healthy" else "warning"
        usage_percent := some (used / total * 100) }
    | .exc => { status := "error" }
  let memEntry : HealthCheckEntry := match mem with
    | .usage percent _ =>
      { status := if percent < 90 then "healthy" else "warning"
        usage_percent := some percent }
    | .importError => { status := "unknown" }
    | .exc => { status := "error" }
  let overall :=
    if diskEntry.status = "error" then "unhealthy"
    else if diskEntry.status = "warning" ∨ memEntry.status = "warning" then "degraded"
    else "healthy"
  ⟨overall, diskEntry, memEntry⟩

/-- Python `int(·)` on a rational: truncation toward zero. -/
def truncInt (q : ℚ) : ℤ := if 0 ≤ q then ⌊q⌋ else ⌈q⌉

/-- Python `min(values)` for a nonempty list (0 for the empty list,
which `get_stats` never passes). -/
def listMinQ : List ℚ → ℚ
  | [] => 0
  | [x] => x
  | x :: y :: xs => min x (listMinQ (y :: xs))

/-- Python `max(values)` for a nonempty list. -/
def listMaxQ : List ℚ → ℚ
  | [] => 0
  | [x] => x
  | x :: y :: xs => max x (listMaxQ (y :: xs))

/-- `MetricsCollector._percentile`: sort ascending, take the element at
index `int(len * percentile)` clamped to the last index.  The empty list
(never passed by `get_stats`) yields the `getD` default. -/
def percentile (values : List ℚ) (p : ℚ) : ℚ :=
  let sorted_values := values.insertionSort (· ≤ ·)
  let index := truncInt ((values.length : ℚ) * p)
  sorted_values.getD (min index.toNat (sorted_values.length - 1)) 0

/-- The per-histogram statistics block of `MetricsCollector.get_stats`;
`none` when the value list is empty (the source skips such keys). -/
structure HistogramStats where
  count : ℕ
  min : ℚ
  max : ℚ
  avg : ℚ
  p95 : ℚ
  p99 : ℚ
deriving DecidableEq

/-- The `stats["histograms"][key]` entry computed by
`MetricsCollector.get_stats` for one histogram's recorded values. -/
def histogram_stats (values : List ℚ) : Option HistogramStats :=
  if values = [] then none
  else some
    { count := values.length
      min := listMinQ values
      max := listMaxQ values
      avg := values.sum / values.length
      p95 := percentile values (95 / 100)
      p99 := percentile values (99 / 100) }

/-! ### Script generator (`backend/app/script_generator.py`) -/

/-- Behaviour of one `openai_client.chat.completions.create` call: the
returned message content, or a raised (generic, non-`ScriptGenerationError`)
exception. -/
inductive ClientResult
  | content (s : String)
  | raises
deriving DecidableEq

/-- `script_generator.clean_script`: strip, remove one pair of wrapping
double quotes, collapse whitespace and re-strip, then truncate over-long
scripts to 147 characters plus `"..."`. -/
def clean_script (script : String) : String :=
  if script = "" then ""
  else
    let s := pyStrip script
    let s := if s.startsWith "\"" && s.endsWith "\"" then ⟨(s.data.drop 1).dropLast⟩ else s
    let s := pyStrip ⟨collapseWs s.data⟩
    if s.length > 150 then strTake s 147 ++ "..." else s

/-- `script_generator.validate_script`: non-empty, at most 150
characters, trimmed length at least 5. -/
def validate_script (script : String) : Bool :=
  if script = "" then false
  else if script.length > 150 then false
  else if (pyStrip script).length < 5 then false
  else true

/-- The deterministic fallback `f"New email from {from 'someone'}: {subject ''}"`
shared by `generate_script`'s generic-exception handler and
`generate_script_with_retry`'s retry-exhaustion path. -/
def script_fallback (email_data : EmailInput) : String :=
  "New email from " ++ email_data.from_.getD "someone" ++ ": " ++ email_data.subject.getD ""

/-- `script_generator.generate_script`, parameterised by the OpenAI
client (`none` = `openai_client is None`).  `.error ()` models a raised
`ScriptGenerationError`; any generic exception from the client call is
caught inside and turned into the deterministic fallback, as in the
source.  A `None` message content (whose `.strip()` would raise
`AttributeError` and fall into the same generic handler) is modelled by
`ClientResult.raises`. -/
def generate_script (client : Option ClientResult) (email_data : EmailInput) :
    Except Unit String :=
  if (email_data.body.getD "" = "") &&
      (email_data.subject.getD "" = "" || email_data.subject == some "No subject") then
    .ok (strTake ("New email from " ++ email_data.from_.getD "Unknown") 150)
  else
    match client with
    | none => .error ()
    | some .raises => .ok (strTake (script_fallback email_data) 150)
    | some (.content c) =>
      let script := clean_script (pyStrip c)
      if validate_script script then .ok script else .error ()

/-- The retry loop of `generate_script_with_retry`, with the client
behaviour of each attempt given by `clients`; returns the produced
script together with the number of `generate_script` calls made.
`attempt` is the current index, the second argument the remaining
iterations of `for attempt in range(max_retries)`. -/
def retry_loop (clients : ℕ → Option ClientResult) (email_data : EmailInput)
    (attempt : ℕ) : ℕ → String × ℕ
  | 0 => (strTake (script_fallback email_data) 150, 0)
  | n + 1 =>
    match generate_script (clients attempt) email_data with
    | .ok s => (s, 1)
    | .error _ =>
      let r := retry_loop clients email_data (attempt + 1) n
      (r.1, r.2 + 1)

/-- `script_generator.generate_script_with_retry` (the `asyncio.sleep`
backoff between failed attempts has no effect on the returned value and
is not modelled): result and number of underlying `generate_script`
calls. -/
def generate_script_with_retry (clients : ℕ → Option ClientResult)
    (email_data : EmailInput) (max_retries : ℕ := 3) : String × ℕ :=
  retry_loop clients email_data 0 max_retries

/-! ### HTTP endpoints (`backend/app/main.py`) -/

/-- A raised Python exception as seen by the endpoints' catch-all
handlers: FastAPI's `HTTPException` (status + detail) or any other
exception (carrying its message). -/
inductive PyExc
  | httpExc (status : ℕ) (detail : String)
  | other (msg : String)
deriving DecidableEq

/-- Python `str(e)`: Starlette's `HTTPException.__str__` is
`f"{status_code}: {detail}"`; for other exceptions, the message. -/
def strOfExc : PyExc → String
  | .httpExc status detail => toString status ++ ": " ++ detail
  | .other msg => msg

/-- The `process_email_batch` result dict consumed by the
`/process-emails` endpoint. -/
structure BatchResults where
  total : ℕ
  successful : ℕ
  failed : ℕ
  success_rate : ℚ
  video_urls : List String
deriving DecidableEq

/-- Success payload of `POST /process-emails`. -/
structure ProcessEmailsResponse where
  success : Bool
  batch_results : BatchResults
  message : String
deriving DecidableEq

/-- `main.process_multiple_emails` (`POST /process-emails`),
parameterised by the orchestrator call `batch` (which may itself raise).
Returns the HTTP outcome and whether `process_email_batch` was invoked.
The whole body sits in a `try` whose only handler is
`except Exception`, which re-raises HTTPException 500 with detail
`"Batch processing failed: " + str(e)` — so the explicit
`HTTPException(400)` raised for over-long batches is itself caught and
wrapped into that 500. -/
def process_multiple_emails
    (batch : List EmailInput → Except PyExc BatchResults)
    (emails : List EmailInput) : Except PyExc ProcessEmailsResponse × Bool :=
  if emails.length > 50 then
    (.error (.httpExc 500 ("Batch processing failed: " ++
      strOfExc (.httpExc 400 "Batch size too large. Maximum 50 emails per request."))),
     false)
  else
    match batch emails with
    | .ok results =>
      (.ok { success := true
             batch_results := results
             message := "Processed " ++ toString results.successful ++ " out of " ++
               toString results.total ++ " emails" },
       true)
    | .error e =>
      (.error (.httpExc 500 ("Batch processing failed: " ++ strOfExc e)), true)

/-- The upstream Gmail REST response to the message-list call:
`requests.Response.ok` is `status_code < 400`. -/
structure UpstreamResponse where
  status : ℕ
  text : String
deriving DecidableEq

/-- `requests.Response.ok`. -/
def respOk (r : UpstreamResponse) : Bool := r.status < 400

/-- Outcome of `POST /fetch-and-process-gmail` on success: either the
early "no emails" response or the summary produced by the
per-email persist/convert loop (abstracted as type `σ`). -/
inductive GmailFetchResult (σ : Type)
  | noEmails
  | processed (summary : σ)
deriving DecidableEq

/-- `main.fetch_and_process_gmail` (`POST /fetch-and-process-gmail`)
down to the granularity the claims need, parameterised by: the token in
the request body; the upstream list response; the message ids parsed
from a successful list response; the per-message detail fetch (`none`
models a non-OK detail response, skipped by the source); and the
persist/convert loop over the fetched emails (abstract, may raise).
Returns the HTTP outcome and the number of per-message detail fetches
attempted.  As in `process_multiple_emails`, every raised exception —
including the explicit `HTTPException`s for a missing token and for a
non-OK list response — is caught by the body's catch-all
`except Exception` and re-raised as HTTPException 500 with detail
`"Gmail processing failed: " + str(e)`. -/
def fetch_and_process_gmail {ε σ : Type}
    (token : Option String) (listResp : UpstreamResponse)
    (messages : List String) (detail : String → Option ε)
    (processLoop : List ε → Except PyExc σ) :
    Except PyExc (GmailFetchResult σ) × ℕ :=
  let wrap : PyExc → Except PyExc (GmailFetchResult σ) := fun e =>
    .error (.httpExc 500 ("Gmail processing failed: " ++ strOfExc e))
  match token with
  | none => (wrap (.httpExc 400 "access_token is required"), 0)
  | some _ =>
    if respOk listResp then
      if messages = [] then (.ok .noEmails, 0)
      else
        let emails := messages.filterMap detail
        if emails.isEmpty then (.ok .noEmails, messages.length)
        else
          match processLoop emails with
          | .ok summary => (.ok (.processed summary), messages.length)
          | .error e => (wrap e, messages.length)
    else
      (wrap (.httpExc listResp.status
        ("Failed to fetch Gmail message list: " ++ listResp.text)), 0)

/-! ### Video assembly (`backend/app/video_assembly.py`) -/

/-- Python's `\w` on ASCII: letters, digits or underscore (the regexes in
the source are modelled over ASCII text). -/
def isWordChar (c : Char) : Bool := c.isAlphanum || c = '_'

/-- `re.findall(r'\b\w+\b', ·)`: the maximal runs of word characters, in
order.  `acc` holds the current run, reversed. -/
def splitWordsAux : List Char → List Char → List (List Char)
  | [], acc => if acc.isEmpty then [] else [acc.reverse]
  | c :: cs, acc =>
    if isWordChar c then splitWordsAux cs (c :: acc)
    else if acc.isEmpty then splitWordsAux cs []
    else acc.reverse :: splitWordsAux cs []

/-- `re.findall(r'\b\w+\b', ·)` over a character list. -/
def splitWords (l : List Char) : List (List Char) := splitWordsAux l []

/-- Python `max(0.3, min(d, 1.5))`-style clamping. -/
def clampQ (x lo hi : ℚ) : ℚ := max lo (min x hi)

/-- One `(word, start_time, end_time)` tuple of
`video_assembly.generate_word_timings`. -/
structure WordTiming where
  word : List Char
  start : ℚ
  stop : ℚ
deriving DecidableEq

/-- The timing loop of `generate_word_timings`: `avg` is the
pre-computed `audio_duration / total_words`, `cur` the running
`current_time`, `i` the word index.  Each word gets duration
`clamp(avg * (len(word)/5) * (1 + 0.1*(i % 3)), 0.3, 1.5)` and
consecutive words are separated by a `0.1`s gap. -/
def timingsFrom (avg : ℚ) : ℚ → ℕ → List (List Char) → List WordTiming
  | _, _, [] => []
  | cur, i, w :: ws =>
    let d := clampQ (avg * ((w.length : ℚ) / 5) * (1 + ((i % 3 : ℕ) : ℚ) / 10)) (3/10) (3/2)
    ⟨w, cur, cur + d⟩ :: timingsFrom avg (cur + d + 1/10) (i + 1) ws

/-- `video_assembly.generate_word_timings`: lower-case the script,
extract the words, and lay them out starting at `0.2`s. -/
def generate_word_timings (script : String) (audio_duration : ℚ) : List WordTiming :=
  let words := splitWords (script.data.map pyToLower)
  if words.isEmpty then []
  else timingsFrom (audio_duration / (words.length : ℚ)) (1/5) 0 words

/-- The `word_timings[i:i+3]` chunking of `create_subtitle_file`
(`chunk_size = 3`). -/
def chunksOf3 : List WordTiming → List (List WordTiming)
  | [] => []
  | t :: ts => (t :: ts.take 2) :: chunksOf3 (ts.drop 2)
termination_by l => l.length
decreasing_by simp [List.length_drop]; omega

/-- One SRT entry written by `create_subtitle_file`: index, chunk start
(first word's start), chunk end (last word's end), and the upper-cased
space-joined caption (kept as a character list). -/
structure SubtitleEntry where
  index : ℕ
  start : ℚ
  stop : ℚ
  text : List Char
deriving DecidableEq

/-- The entry-emitting loop of `create_subtitle_file` over the word
chunks, starting at `subtitle_index = 1`; the source's `if not chunk:
continue` branch is mirrored by skipping empty chunks. -/
def entriesFrom : ℕ → List (List WordTiming) → List SubtitleEntry
  | _, [] => []
  | idx, chunk :: rest =>
    match chunk with
    | [] => entriesFrom idx rest
    | t :: ts =>
      { index := idx
        start := t.start
        stop := (ts.getLastD t).stop
        text := (joinWords ((t :: ts).map (·.word))).map pyToUpper } ::
      entriesFrom (idx + 1) rest

/-- `video_assembly.create_subtitle_file`, modelled as the list of SRT
entries it writes (the file path, `HH:MM:SS,mmm` time formatting and
filesystem I/O are not part of the claims). -/
def create_subtitle_file (script : String) (audio_duration : ℚ) : List SubtitleEntry :=
  entriesFrom 1 (chunksOf3 (generate_word_timings script audio_duration))

/-- Number of space-separated (nonempty) tokens in a character list:
`inTok` records whether the previous character was a non-space. -/
def tokenCountAux : List Char → Bool → ℕ
  | [], _ => 0
  | c :: cs, inTok =>
    if c = ' ' then tokenCountAux cs false
    else (if inTok then 0 else 1) + tokenCountAux cs true

/-- Number of space-separated tokens of a caption. -/
def tokenCount (l : List Char) : ℕ := tokenCountAux l false

/-- Concrete long email body used to exercise the 500-character
truncation: 300 lines of `"ab"`, whose cleaned form is the 899-character
string `"ab ab ... ab"`. -/
def longBody : String := ⟨(List.replicate 300 "ab\n".data).flatten⟩

/-- Email dict used by the script-generator examples, mirroring the
repository's unit-test fixture. -/
def testEmailC7 : EmailInput :=
  { id := some "msg_123", from_ := some "test@example.com",
    subject := some "Test", body := some "Test body" }

/-- Batch of 51 empty email dicts (one over the `/process-emails`
cap). -/
def emails51 : List EmailInput := List.replicate 51 ({} : EmailInput)

/-! ### Theorems -/

/-- Length of a Python string slice `s[:n]`. -/
theorem strTake_length (s : String) (n : ℕ) : (strTake s n).length = min n s.length := by
  show (s.data.take n).length = min n s.data.length
  simp [List.length_take]

/-- C1 (counterexample): on a machine reporting 95% disk usage and 10%
memory usage, `check_system_health` does **not** return `"unhealthy"`:
95% disk usage is only a `"warning"`, and the overall status is
`"unhealthy"` only when the critical disk check has status `"error"`. -/
theorem check_system_health_disk95_not_unhealthy :
    (check_system_health (.usage 100 95 5) (.usage 10 54)).status ≠ "unhealthy" := by
  norm_num [check_system_health]
  decide

/-- C1 (amended): on a machine reporting 95% disk usage (a `"warning"`)
and 10% memory usage, `check_system_health` returns overall status
`"degraded"`; `"unhealthy"` is reserved for the case where the critical
disk-space check itself errors. -/
theorem check_system_health_disk95_degraded :
    (check_system_health (.usage 100 95 5) (.usage 10 54)).status = "degraded" ∧
    (check_system_health (.usage 100 95 5) (.usage 10 54)).disk_space.status = "warning" ∧
    (check_system_health .exc (.usage 10 54)).status = "unhealthy" := by
  norm_num [check_system_health]
  decide

/-- C9: the histogram percentile statistic is nearest-rank selection,
not interpolation: for the 10 recorded values 1..10 the reported p95 is
the element at index `int(10 * 0.95) = 9` of the sorted list — the 10th
value, 10 — not the interpolated 9.55. -/
theorem histogram_p95_nearest_rank :
    (histogram_stats [1, 2, 3, 4, 5, 6, 7, 8, 9, 10]).map (fun s => s.p95) = some 10 ∧
    percentile [1, 2, 3, 4, 5, 6, 7, 8, 9, 10] (95 / 100) =
      (([1, 2, 3, 4, 5, 6, 7, 8, 9, 10] : List ℚ).insertionSort (· ≤ ·)).getD 9 0 ∧
    truncInt ((10 : ℚ) * (95 / 100)) = 9 := by
  have h19 : truncInt ((19 : ℚ) / 2) = 9 := by
    norm_num [truncInt]
  have h9 : truncInt ((10 : ℚ) * (95 / 100)) = 9 := by
    rw [show ((10 : ℚ) * (95 / 100)) = 19 / 2 by norm_num]
    exact h19
  have hp : percentile [1, 2, 3, 4, 5, 6, 7, 8, 9, 10] (95 / 100) = 10 := by
    simp only [percentile, List.length_cons, List.length_nil, List.length_insertionSort]
    rw [show ((((0 : ℕ) + 1 + 1 + 1 + 1 + 1 + 1 + 1 + 1 + 1 + 1 : ℕ)) : ℚ) * (95 / 100) = 19 / 2
      by push_cast; norm_num]
    rw [h19]
    decide
  refine ⟨?_, ?_, h9⟩
  · simp [histogram_stats, hp]
  · rw [hp]
    decide

/-- C4: `parse_email` is total on mappings (and on the `None` input) and
substitutes `"Unknown"`, `"No subject"` and `""` for the `from`,
`subject` and `body` keys whenever they are absent; the returned record
always carries all four fields as plain strings (by the type of
`ParsedEmail`). -/
theorem parse_email_total_with_defaults (fresh : String) (htmlText : String → String)
    (input : Option EmailInput) :
    ((input.getD {}).from_ = none → (parse_email fresh htmlText input).from_ = "Unknown") ∧
    ((input.getD {}).subject = none → (parse_email fresh htmlText input).subject = "No subject") ∧
    ((input.getD {}).body = none → (parse_email fresh htmlText input).body = "") := by
  refine ⟨fun h => ?_, fun h => ?_, fun h => ?_⟩ <;>
    simp [parse_email, h, clean_email_body]

/-- C4 (witness): `parse_email` on the empty dict at a concrete fresh
id. -/
theorem parse_email_total_with_defaults_witness :
    (parse_email "uuid-1" id (some {})).from_ = "Unknown" ∧
    (parse_email "uuid-1" id (some {})).subject = "No subject" ∧
    (parse_email "uuid-1" id (some {})).body = "" :=
  ⟨(parse_email_total_with_defaults "uuid-1" id (some {})).1 rfl,
   (parse_email_total_with_defaults "uuid-1" id (some {})).2.1 rfl,
   (parse_email_total_with_defaults "uuid-1" id (some {})).2.2 rfl⟩

/-- C10: the `"Unknown"` / `"No subject"` defaults apply only to absent
keys — a `from` or `subject` key present with the empty-string value is
preserved as `""` — while an `id` key present with the (falsy) empty
string is replaced by the freshly generated identifier exactly as a
missing `id` is. -/
theorem parse_email_empty_string_fields (fresh : String) (htmlText : String → String)
    (d : EmailInput) :
    (d.from_ = some "" → (parse_email fresh htmlText (some d)).from_ = "") ∧
    (d.subject = some "" → (parse_email fresh htmlText (some d)).subject = "") ∧
    (d.id = some "" → (parse_email fresh htmlText (some d)).id = fresh) ∧
    (d.id = none → (parse_email fresh htmlText (some d)).id = fresh) := by
  refine ⟨fun h => ?_, fun h => ?_, fun h => ?_, fun h => ?_⟩ <;>
    simp [parse_email, h]

/-- C10 (witness): concrete dicts with empty-string `from`, `subject`
and `id` values, and with `id` absent. -/
theorem parse_email_empty_string_fields_witness :
    (parse_email "uuid-1" id (some { id := some "", from_ := some "", subject := some "" })).from_ = "" ∧
    (parse_email "uuid-1" id (some { id := some "", from_ := some "", subject := some "" })).subject = "" ∧
    (parse_email "uuid-1" id (some { id := some "", from_ := some "", subject := some "" })).id = "uuid-1" ∧
    (parse_email "uuid-1" id (some {})).id = "uuid-1" :=
  ⟨(parse_email_empty_string_fields "uuid-1" id _).1 rfl,
   (parse_email_empty_string_fields "uuid-1" id _).2.1 rfl,
   (parse_email_empty_string_fields "uuid-1" id _).2.2.1 rfl,
   (parse_email_empty_string_fields "uuid-1" id {}).2.2.2 rfl⟩

/-- C5: whenever the cleaned body is longer than 500 characters, the
`body` field returned by `parse_email` is exactly the first 500
characters of the cleaned text, and so has length exactly 500. -/
theorem parse_email_truncates_long_bodies (fresh : String) (htmlText : String → String)
    (d : EmailInput) (b : String) (hb : d.body = some b)
    (h : 500 < (clean_email_body htmlText b).length) :
    (parse_email fresh htmlText (some d)).body = strTake (clean_email_body htmlText b) 500 ∧
    (parse_email fresh htmlText (some d)).body.length = 500 := by
  have hgt : (clean_email_body htmlText b).length > 500 := h
  constructor
  · simp [parse_email, hb, hgt]
  · simp [parse_email, hb, hgt, strTake_length]
    omega

set_option maxRecDepth 20000 in
/-- C5 (witness): the concrete 300-line body cleans to 899 characters
and is truncated to its first 500. -/
theorem parse_email_truncates_long_bodies_witness :
    (parse_email "uuid-1" id (some { body := some longBody })).body =
      strTake (clean_email_body id longBody) 500 ∧
    (parse_email "uuid-1" id (some { body := some longBody })).body.length = 500 :=
  parse_email_truncates_long_bodies "uuid-1" id _ longBody rfl (by decide)

/-- Length of a concatenation of Python strings. -/
theorem strLength_append (a b : String) : (a ++ b).length = a.length + b.length := by
  show (a.data ++ b.data).length = a.data.length + b.data.length
  exact List.length_append _ _

/-- Positivity of the length of a non-empty Python string. -/
theorem strLength_pos_of_ne (s : String) (h : s ≠ "") : 1 ≤ s.length := by
  obtain ⟨data⟩ := s
  cases data with
  | nil => exact absurd rfl h
  | cons c cs => simp [String.length]

/-- Scripts produced by the model path of `generate_script` pass
`validate_script`, and both fallback strings are the `[:150]` slice of a
string of length at least 15, so every successfully returned script has
between 1 and 150 characters. -/
theorem generate_script_length_ok (client : Option ClientResult) (e : EmailInput)
    (s : String) (h : generate_script client e = .ok s) :
    1 ≤ s.length ∧ s.length ≤ 150 := by
  have hpre : ("New email from " : String).length = 15 := rfl
  unfold generate_script at h
  split at h
  · -- empty-email fallback
    injection h with h
    subst h
    rw [strTake_length, strLength_append, hpre]
    omega
  · split at h
    · exact absurd h (by simp)
    · -- generic-exception fallback
      injection h with h
      subst h
      rw [strTake_length]
      unfold script_fallback
      rw [strLength_append, strLength_append, strLength_append, hpre]
      omega
    · -- model path, validated
      rename_i c
      dsimp only at h
      split at h
      · rename_i hv
        injection h with h
        subst h
        unfold validate_script at hv
        split_ifs at hv with h1 h2 h3
        refine ⟨strLength_pos_of_ne _ h1, ?_⟩
        omega
      · exact absurd h (by simp)

/-- Each iteration of the retry loop returns either a validated script
or one of the bounded fallbacks, so its result is always 1..150
characters long. -/
theorem retry_loop_length (clients : ℕ → Option ClientResult) (e : EmailInput)
    (a n : ℕ) :
    1 ≤ (retry_loop clients e a n).1.length ∧ (retry_loop clients e a n).1.length ≤ 150 := by
  have hpre : ("New email from " : String).length = 15 := rfl
  induction n generalizing a with
  | zero =>
    simp only [retry_loop]
    rw [strTake_length]
    unfold script_fallback
    rw [strLength_append, strLength_append, strLength_append, hpre]
    omega
  | succ n ih =>
    simp only [retry_loop]
    cases hg : generate_script (clients a) e with
    | ok s =>
      simp only [hg]
      exact generate_script_length_ok (clients a) e s hg
    | error u =>
      simp only [hg]
      exact ih (a + 1)

/-- C6: every script string the Script Generator returns — via the model
path (cleaned and validated) or via any of its fallback paths
(empty-email fallback, model-failure fallback, retry-exhaustion
fallback) — has length at least 1 and at most 150 characters. -/
theorem script_generator_length_bounds (client : Option ClientResult)
    (clients : ℕ → Option ClientResult) (e : EmailInput) (n : ℕ) (s : String)
    (h : generate_script client e = .ok s ∨ s = (generate_script_with_retry clients e n).1) :
    1 ≤ s.length ∧ s.length ≤ 150 := by
  cases h with
  | inl h => exact generate_script_length_ok client e s h
  | inr h =>
    rw [h]
    exact retry_loop_length clients e 0 n

/-- C6 (witness): the model-failure fallback for the empty dict. -/
theorem script_generator_length_bounds_witness :
    1 ≤ (strTake ("New email from " ++ "Unknown") 150).length ∧
    (strTake ("New email from " ++ "Unknown") 150).length ≤ 150 :=
  script_generator_length_bounds (some .raises) (fun _ => none) {} 0
    (strTake ("New email from " ++ "Unknown") 150) (.inl rfl)

/-- C7 (counterexample): with a model client that always raises a
generic exception, `generate_script` itself catches the error and
returns the deterministic fallback, so `generate_script_with_retry`
with `max_retries = 3` makes exactly **one** underlying generation call
— not 3 — while still returning
`"New email from {from}: {subject}"[:150]`. -/
theorem retry_raising_client_single_call :
    (generate_script_with_retry (fun _ => some .raises) testEmailC7 3).2 = 1 ∧
    (generate_script_with_retry (fun _ => some .raises) testEmailC7 3).2 ≠ 3 ∧
    (generate_script_with_retry (fun _ => some .raises) testEmailC7 3).1 =
      strTake (script_fallback testEmailC7) 150 :=
  ⟨rfl, by decide, rfl⟩

/-- C7 (amended): when every attempt signals `ScriptGenerationError`
(for example because the model client is unconfigured — a model client
raising a generic exception instead makes `generate_script` return the
fallback on the first call), `generate_script_with_retry` calls the
underlying generation exactly `max_retries` times and then returns the
deterministic fallback `"New email from {from}: {subject}"[:150]`
instead of raising. -/
theorem retry_exhaustion_fallback (clients : ℕ → Option ClientResult)
    (e : EmailInput) (n : ℕ)
    (h : ∀ i, generate_script (clients i) e = .error ()) :
    generate_script_with_retry clients e n = (strTake (script_fallback e) 150, n) := by
  show retry_loop clients e 0 n = _
  suffices H : ∀ a m, retry_loop clients e a m = (strTake (script_fallback e) 150, m) from
    H 0 n
  intro a m
  induction m generalizing a with
  | zero => rfl
  | succ m ih => simp only [retry_loop, h a, ih (a + 1)]

/-- C7 (witness): an unconfigured client on the test email makes all 3
attempts fail and yields the fallback. -/
theorem retry_exhaustion_fallback_witness :
    generate_script_with_retry (fun _ => none) testEmailC7 3 =
      (strTake (script_fallback testEmailC7) 150, 3) :=
  retry_exhaustion_fallback (fun _ => none) testEmailC7 3 (fun _ => rfl)

/-- C2 (code bug): when the upstream Gmail message-list call returns
HTTP 401, the endpoint body raises `HTTPException(401, upstream body)` —
but that exception is caught by the endpoint's own catch-all
`except Exception` and re-raised as HTTP **500** with detail
`"Gmail processing failed: 401: Failed to fetch Gmail message list: ..."`.
No per-message detail fetch is attempted (the second component is 0),
but the response status is 500, not the upstream 401 the spec
describes. -/
theorem fetch_gmail_list_401_wrapped_500 {ε σ : Type} (messages : List String)
    (detail : String → Option ε) (processLoop : List ε → Except PyExc σ)
    (body : String) :
    fetch_and_process_gmail (some "token") ⟨401, body⟩ messages detail processLoop =
      (.error (.httpExc 500 ("Gmail processing failed: " ++
        strOfExc (.httpExc 401 ("Failed to fetch Gmail message list: " ++ body)))), 0) ∧
    ∀ d : String,
      (fetch_and_process_gmail (some "token") ⟨401, body⟩ messages detail processLoop).1 ≠
        .error (.httpExc 401 d) := by
  refine ⟨rfl, fun d hd => ?_⟩
  rw [show (fetch_and_process_gmail (some "token") ⟨401, body⟩ messages detail processLoop).1 =
    .error (.httpExc 500 ("Gmail processing failed: " ++
      strOfExc (.httpExc 401 ("Failed to fetch Gmail message list: " ++ body)))) from rfl] at hd
  simp at hd

/-- C3 (code bug): a 51-email batch makes `process_multiple_emails`
raise `HTTPException(400, "Batch size too large...")`, but the
endpoint's catch-all `except Exception` catches it and re-raises HTTP
**500** with detail `"Batch processing failed: 400: Batch size too
large. Maximum 50 emails per request."`; `process_email_batch` is never
invoked (second component `false`), but the response status is 500, not
the 400 the spec describes. -/
theorem process_emails_51_wrapped_500
    (batch : List EmailInput → Except PyExc BatchResults) :
    process_multiple_emails batch emails51 =
      (.error (.httpExc 500 ("Batch processing failed: " ++
        strOfExc (.httpExc 400 "Batch size too large. Maximum 50 emails per request."))),
       false) ∧
    (process_multiple_emails batch emails51).1 ≠
      .error (.httpExc 400 "Batch size too large. Maximum 50 emails per request.") := by
  refine ⟨rfl, fun hd => ?_⟩
  rw [show (process_multiple_emails batch emails51).1 =
    .error (.httpExc 500 ("Batch processing failed: " ++
      strOfExc (.httpExc 400 "Batch size too large. Maximum 50 emails per request."))) from rfl] at hd
  simp at hd


set_option maxHeartbeats 1600000 in
theorem pyToUpper_idem (c : Char) : pyToUpper (pyToUpper c) = pyToUpper c := by
  unfold pyToUpper
  split
  all_goals try rfl
  all_goals
    (rename_i heq
     split at heq <;>
       first
         | exact absurd heq (by decide)
         | (subst heq; exact absurd rfl (by assumption)))

theorem pyToUpper_space (c : Char) : (pyToUpper c = ' ') ↔ (c = ' ') := by
  unfold pyToUpper
  split
  all_goals first | rfl | decide

theorem timingsFrom_wide (avg : ℚ) (ws : List (List Char)) :
    ∀ (cur : ℚ) (i : ℕ) (t : WordTiming), t ∈ timingsFrom avg cur i ws →
      t.start + 3/10 ≤ t.stop := by
  induction ws with
  | nil => intro cur i t ht; simp [timingsFrom] at ht
  | cons w ws ih =>
    intro cur i t ht
    simp only [timingsFrom, List.mem_cons] at ht
    rcases ht with h | h
    · subst h
      show cur + 3/10 ≤ cur + clampQ _ (3/10) (3/2)
      have hc := le_max_left (3/10 : ℚ)
        (min (avg * ((w.length : ℚ) / 5) * (1 + ((i % 3 : ℕ) : ℚ) / 10)) (3/2))
      simp only [clampQ]
      linarith
    · exact ih _ _ t h

theorem timingsFrom_head_start (avg cur : ℚ) (i : ℕ) (ws : List (List Char))
    (t : WordTiming) (h : (timingsFrom avg cur i ws).head? = some t) : t.start = cur := by
  cases ws with
  | nil => simp [timingsFrom] at h
  | cons w ws =>
    simp only [timingsFrom, List.head?_cons, Option.some.injEq] at h
    subst h
    rfl

theorem timingsFrom_linked (avg : ℚ) (ws : List (List Char)) :
    ∀ (cur : ℚ) (i : ℕ),
      List.Chain' (fun a b => b.start = a.stop + 1/10) (timingsFrom avg cur i ws) := by
  induction ws with
  | nil => intro cur i; simp [timingsFrom]
  | cons w ws ih =>
    intro cur i
    simp only [timingsFrom]
    rw [List.chain'_cons']
    refine ⟨fun y hy => ?_, ih _ _⟩
    rw [Option.mem_def] at hy
    rw [timingsFrom_head_start _ _ _ _ _ hy]

theorem timingsFrom_word_mem (avg : ℚ) (ws : List (List Char)) :
    ∀ (cur : ℚ) (i : ℕ) (t : WordTiming), t ∈ timingsFrom avg cur i ws → t.word ∈ ws := by
  induction ws with
  | nil => intro _ _ t ht; simp [timingsFrom] at ht
  | cons w ws ih =>
    intro cur i t ht
    simp only [timingsFrom, List.mem_cons] at ht
    rcases ht with h | h
    · subst h; exact List.mem_cons_self _ _
    · exact List.mem_cons_of_mem _ (ih _ _ t h)

theorem splitWordsAux_wordChar (l : List Char) :
    ∀ (acc : List Char), (∀ c ∈ acc, isWordChar c = true) →
      ∀ w ∈ splitWordsAux l acc, ∀ c ∈ w, isWordChar c = true := by
  induction l with
  | nil =>
    intro acc hacc w hw c hc
    simp only [splitWordsAux] at hw
    split at hw
    · simp at hw
    · simp only [List.mem_singleton] at hw
      subst hw
      exact hacc c (List.mem_reverse.mp hc)
  | cons x xs ih =>
    intro acc hacc w hw c hc
    simp only [splitWordsAux] at hw
    split at hw
    · rename_i hx
      refine ih (x :: acc) ?_ w hw c hc
      intro c' hc'
      rcases List.mem_cons.mp hc' with rfl | h
      · exact hx
      · exact hacc _ h
    · split at hw
      · exact ih [] (by simp) w hw c hc
      · rcases List.mem_cons.mp hw with rfl | h
        · exact hacc c (List.mem_reverse.mp hc)
        · exact ih [] (by simp) w h c hc

theorem chunksOf3_flatten (N : ℕ) :
    ∀ l : List WordTiming, l.length ≤ N → (chunksOf3 l).flatten = l := by
  induction N with
  | zero =>
    intro l hl
    cases l with
    | nil => simp [chunksOf3]
    | cons t ts => simp at hl
  | succ N ih =>
    intro l hl
    cases l with
    | nil => simp [chunksOf3]
    | cons t ts =>
      rw [chunksOf3]
      simp only [List.flatten_cons]
      rw [ih (ts.drop 2) (by simp [List.length_drop]; simp at hl; omega)]
      simp [List.take_append_drop]

theorem chunksOf3_shape (N : ℕ) :
    ∀ (l : List WordTiming) (c : List WordTiming), l.length ≤ N → c ∈ chunksOf3 l →
      c.length ≤ 3 ∧ c ≠ [] := by
  induction N with
  | zero =>
    intro l c hl hc
    cases l with
    | nil => simp [chunksOf3] at hc
    | cons t ts => simp at hl
  | succ N ih =>
    intro l c hl hc
    cases l with
    | nil => simp [chunksOf3] at hc
    | cons t ts =>
      rw [chunksOf3] at hc
      rcases List.mem_cons.mp hc with rfl | hc
      · refine ⟨?_, by simp⟩
        simp only [List.length_cons, List.length_take]
        omega
      · exact ih (ts.drop 2) c (by simp [List.length_drop]; simp at hl; omega) hc

theorem entriesFrom_head_start (l : List WordTiming) (idx : ℕ) (e : SubtitleEntry)
    (h : (entriesFrom idx (chunksOf3 l)).head? = some e) :
    ∃ t, l.head? = some t ∧ e.start = t.start := by
  cases l with
  | nil => simp [chunksOf3, entriesFrom] at h
  | cons t ts =>
    rw [chunksOf3] at h
    simp only [entriesFrom, List.head?_cons, Option.some.injEq] at h
    exact ⟨t, rfl, by rw [← h]⟩

theorem entriesFrom_text (chunks : List (List WordTiming)) :
    ∀ (idx : ℕ) (e : SubtitleEntry), e ∈ entriesFrom idx chunks →
      ∃ chunk, chunk ∈ chunks ∧ chunk ≠ [] ∧
        e.text = (joinWords (chunk.map (·.word))).map pyToUpper := by
  induction chunks with
  | nil => intro idx e he; simp [entriesFrom] at he
  | cons chunk rest ih =>
    intro idx e he
    cases chunk with
    | nil =>
      simp only [entriesFrom] at he
      obtain ⟨c, hc, h1, h2⟩ := ih idx e he
      exact ⟨c, List.mem_cons_of_mem _ hc, h1, h2⟩
    | cons t ts =>
      simp only [entriesFrom, List.mem_cons] at he
      rcases he with rfl | he
      · exact ⟨t :: ts, List.mem_cons_self _ _, by simp, rfl⟩
      · obtain ⟨c, hc, h1, h2⟩ := ih (idx + 1) e he
        exact ⟨c, List.mem_cons_of_mem _ hc, h1, h2⟩

theorem entries_sound (N : ℕ) :
    ∀ (l : List WordTiming) (idx : ℕ), l.length ≤ N →
      List.Chain' (fun a b => b.start = a.stop + 1/10) l →
      (∀ t ∈ l, t.start + 3/10 ≤ t.stop) →
      (∀ e ∈ entriesFrom idx (chunksOf3 l), e.start ≤ e.stop) ∧
      List.Chain' (fun a b => a.stop + 1/10 ≤ b.start) (entriesFrom idx (chunksOf3 l)) := by
  induction N with
  | zero =>
    intro l idx hl _ _
    cases l with
    | nil => simp [chunksOf3, entriesFrom]
    | cons t ts => simp at hl
  | succ N ih =>
    intro l idx hl hlink hwide
    cases l with
    | nil => simp [chunksOf3, entriesFrom]
    | cons t ts =>
      cases ts with
      | nil =>
        have hw := hwide t (List.mem_singleton.mpr rfl)
        rw [chunksOf3]
        simp only [List.take_nil, List.drop_nil, chunksOf3, entriesFrom, List.getLastD_nil]
        constructor
        · intro e he
          rcases List.mem_singleton.mp he with rfl
          show t.start ≤ t.stop
          linarith
        · simp
      | cons a ts2 =>
        have hta : a.start = t.stop + 1/10 := (List.chain'_cons.mp hlink).1
        have hlink2 := (List.chain'_cons.mp hlink).2
        have hwt := hwide t (by simp)
        have hwa := hwide a (by simp)
        cases ts2 with
        | nil =>
          rw [chunksOf3]
          simp only [List.take_succ_cons, List.take_nil, List.take_zero,
            List.drop_succ_cons, List.drop_nil, chunksOf3, entriesFrom, List.getLastD]
          constructor
          · intro e he
            rcases List.mem_singleton.mp he with rfl
            show t.start ≤ a.stop
            linarith
          · simp
        | cons b rest =>
          have hab : b.start = a.stop + 1/10 := (List.chain'_cons.mp hlink2).1
          have hlink3 := (List.chain'_cons.mp hlink2).2
          have hwb := hwide b (by simp)
          have hrec := ih rest (idx + 1)
            (by simp only [List.length_cons] at hl ⊢; omega)
            hlink3.tail
            (fun u hu => hwide u (by simp [hu]))
          rw [chunksOf3]
          simp only [List.take_succ_cons, List.take_zero, List.drop_succ_cons,
            List.drop_zero, entriesFrom, List.getLastD]
          constructor
          · intro e he
            rcases List.mem_cons.mp he with rfl | he
            · show t.start ≤ b.stop
              linarith
            · exact hrec.1 e he
          · rw [List.chain'_cons']
            refine ⟨fun y hy => ?_, hrec.2⟩
            rw [Option.mem_def] at hy
            obtain ⟨u, hu, hy_start⟩ := entriesFrom_head_start rest (idx + 1) y hy
            have hbu : u.start = b.stop + 1/10 :=
              (List.chain'_cons'.mp hlink3).1 u (Option.mem_def.mpr hu)
            rw [hy_start, hbu]
            show b.stop + 1/10 ≤ b.stop + 1/10
            exact le_refl _

theorem tokenCountAux_le (cs : List Char) :
    tokenCountAux cs true ≤ cs.count ' ' ∧ tokenCountAux cs false ≤ cs.count ' ' + 1 := by
  induction cs with
  | nil => simp [tokenCountAux]
  | cons c cs ih =>
    obtain ⟨ih1, ih2⟩ := ih
    by_cases hc : c = ' '
    · subst hc
      simp only [tokenCountAux, if_pos rfl, List.count_cons, if_pos rfl]
      simp
      omega
    · simp only [tokenCountAux, if_neg hc, List.count_cons]
      simp [hc]
      omega

theorem joinWords_count_space (ws : List (List Char)) :
    ws ≠ [] → (∀ w ∈ ws, w.count ' ' = 0) → (joinWords ws).count ' ' + 1 ≤ ws.length := by
  induction ws with
  | nil => intro h; exact absurd rfl h
  | cons w vs ih =>
    intro _ hz
    cases vs with
    | nil =>
      simp only [joinWords, List.length_cons, List.length_nil]
      rw [hz w (by simp)]
    | cons v vs2 =>
      have hrec := ih (by simp) (fun u hu => hz u (List.mem_cons_of_mem _ hu))
      simp only [joinWords, List.count_append, List.count_cons, List.length_cons] at *
      rw [hz w (by simp)]
      simp
      omega

theorem tokenCountAux_map_upper (cs : List Char) :
    ∀ b, tokenCountAux (cs.map pyToUpper) b = tokenCountAux cs b := by
  induction cs with
  | nil => intro b; rfl
  | cons c cs ih =>
    intro b
    by_cases hc : c = ' '
    · subst hc
      simp only [List.map_cons, tokenCountAux]
      rw [show pyToUpper ' ' = ' ' from rfl]
      simp [ih]
    · have hne : pyToUpper c ≠ ' ' := fun h => hc ((pyToUpper_space c).mp h)
      simp only [List.map_cons, tokenCountAux, if_neg hc, if_neg hne, ih]

theorem count_space_zero_of_wordChars (w : List Char)
    (h : ∀ c ∈ w, isWordChar c = true) : w.count ' ' = 0 := by
  rw [List.count_eq_zero]
  intro hsp
  exact absurd (h ' ' hsp) (by decide)

/-- C8: for every script and positive audio duration, the subtitle
entries produced by `create_subtitle_file` are time-ordered and
non-overlapping — each entry's start is at least the previous entry's
end plus 0.1 seconds, and within an entry start ≤ end — and every
caption is upper-cased (fixed by further upper-casing) with at most 3
space-separated tokens. -/
theorem create_subtitle_file_invariants (script : String) (audio_duration : ℚ)
    (hscript : script ≠ "") (hdur : 0 < audio_duration) :
    List.Chain' (fun a b => a.stop + 1/10 ≤ b.start)
      (create_subtitle_file script audio_duration) ∧
    (∀ e ∈ create_subtitle_file script audio_duration, e.start ≤ e.stop) ∧
    (∀ e ∈ create_subtitle_file script audio_duration,
      tokenCount e.text ≤ 3 ∧ e.text.map pyToUpper = e.text) := by
  have htext : ∀ e ∈ create_subtitle_file script audio_duration,
      tokenCount e.text ≤ 3 ∧ e.text.map pyToUpper = e.text := by
    intro e he
    unfold create_subtitle_file at he
    obtain ⟨chunk, hchunk, hne, htxt⟩ := entriesFrom_text _ _ _ he
    set tms := generate_word_timings script audio_duration with htms
    have hshape := chunksOf3_shape tms.length tms chunk le_rfl hchunk
    have hwords : ∀ w ∈ chunk.map (·.word), w.count ' ' = 0 := by
      intro w hw
      obtain ⟨t, ht, rfl⟩ := List.mem_map.mp hw
      have htm : t ∈ tms := by
        rw [← chunksOf3_flatten tms.length tms le_rfl]
        exact List.mem_flatten.mpr ⟨chunk, hchunk, ht⟩
      have hword : t.word ∈ splitWords (script.data.map pyToLower) := by
        unfold generate_word_timings at htms
        rw [htms] at htm
        dsimp only at htm
        split at htm
        · simp at htm
        · exact timingsFrom_word_mem _ _ _ _ t htm
      exact count_space_zero_of_wordChars _
        (splitWordsAux_wordChar _ [] (by simp) _ hword)
    constructor
    · rw [htxt]
      show tokenCountAux _ false ≤ 3
      rw [tokenCountAux_map_upper]
      have h1 := (tokenCountAux_le (joinWords (chunk.map (·.word)))).2
      have h2 := joinWords_count_space (chunk.map (·.word)) (by simpa using hne) hwords
      simp only [List.length_map] at h2
      omega
    · rw [htxt, List.map_map]
      simp [Function.comp_def, pyToUpper_idem]
  have hsound : (∀ e ∈ create_subtitle_file script audio_duration, e.start ≤ e.stop) ∧
      List.Chain' (fun a b => a.stop + 1/10 ≤ b.start)
        (create_subtitle_file script audio_duration) := by
    unfold create_subtitle_file
    exact entries_sound (generate_word_timings script audio_duration).length _ 1 le_rfl
      (by unfold generate_word_timings
          dsimp only
          split
          · simp
          · exact timingsFrom_linked _ _ _ _)
      (by unfold generate_word_timings
          dsimp only
          split
          · simp
          · exact fun t ht => timingsFrom_wide _ _ _ _ t ht)
  exact ⟨hsound.2, hsound.1, htext⟩

/-- C8 (witness): the invariants instantiated on a concrete 4-word
script with a 2-second audio duration. -/
theorem create_subtitle_file_invariants_witness :
    List.Chain' (fun a b => a.stop + 1/10 ≤ b.start)
      (create_subtitle_file "hello world now then" 2) ∧
    (∀ e ∈ create_subtitle_file "hello world now then" 2, e.start ≤ e.stop) ∧
    (∀ e ∈ create_subtitle_file "hello world now then" 2,
      tokenCount e.text ≤ 3 ∧ e.text.map pyToUpper = e.text) :=
  create_subtitle_file_invariants "hello world now then" 2 (by decide) (by norm_num)
